import Mathlib

/-!
# Verification of the canva-to-outlook conversion pipeline

Shallow embedding of the Express server in
`src/src/intents/design_editor/index.tsx` (the `/api/process` handler and its
helpers), together with theorems settling the specification claims about
path normalization, image collection, document selection, content-addressed
upload, HTML rewriting and the conversion orchestrator.

Strings are Lean `String`s; JavaScript string primitives (`toLowerCase`,
`indexOf`, `substring`, `startsWith`, `endsWith`, `includes`, `lastIndexOf`)
are modelled character-wise over `String.data`.  Buffers are `List Nat`
(byte lists).  External collaborators (the SHA-256 hex digest from `crypto`,
the Cloudinary backend, cheerio's parser/serializer) enter as parameters.
-/

namespace CanvaToOutlook

/-! ## Character-level string primitives (JS string methods) -/

/-- JS `s.toLowerCase()` modelled character-wise (ASCII). -/
def strLower (s : String) : String :=
  String.mk (s.data.map Char.toLower)

/-- Boolean prefix test on character lists. -/
def isPrefixL (pat s : List Char) : Bool :=
  match pat, s with
  | [], _ => true
  | _ :: _, [] => false
  | a :: as, b :: bs => a = b && isPrefixL as bs

/-- First index (in characters) at which `pat` occurs in `s`, like JS
`s.indexOf(pat)` returning `none` for `-1`. -/
def idxOfL (pat : List Char) : List Char → Option Nat
  | [] => if pat.isEmpty then some 0 else none
  | c :: rest =>
    if isPrefixL pat (c :: rest) then some 0
    else (idxOfL pat rest).map (· + 1)

/-- JS `s.indexOf(pat)` as an `Option Nat`. -/
def strIndexOf (s pat : String) : Option Nat :=
  idxOfL pat.data s.data

/-- JS `s.includes(pat)`. -/
def strContains (s pat : String) : Bool :=
  (strIndexOf s pat).isSome

/-- JS `s.startsWith(pre)`. -/
def strStartsWith (s pre : String) : Bool :=
  isPrefixL pre.data s.data

/-- JS `s.endsWith(suf)`. -/
def strEndsWith (s suf : String) : Bool :=
  isPrefixL suf.data.reverse s.data.reverse

/-- JS `s.substring(n)` (drop the first `n` characters). -/
def strDrop (s : String) (n : Nat) : String :=
  String.mk (s.data.drop n)

/-- First `n` characters of `s`, like JS `s.slice(0, n)`. -/
def strTake (s : String) (n : Nat) : String :=
  String.mk (s.data.take n)

/-- Index just past the last `/` of `s`: `s.lastIndexOf('/') + 1`
(`0` when there is no slash, since JS `lastIndexOf` returns `-1` there). -/
def afterLastSlashIdx (s : String) : Nat :=
  match idxOfL ['/'] s.data.reverse with
  | some i => s.data.length - i
  | none => 0

/-- JS whitespace test for `String.prototype.trim` (ASCII subset). -/
def isJsSpace (c : Char) : Bool :=
  c = ' ' || c = '\t' || c = '\n' || c = '\r'

/-- JS `s.trim()`. -/
def strTrim (s : String) : String :=
  String.mk ((s.data.dropWhile isJsSpace).reverse.dropWhile isJsSpace |>.reverse)

/-! ## PathNormalizer — `normalizeImagePath` (index.tsx lines 120–125)

```js
function normalizeImagePath(p) {
  let n = p.replace(/^\.\.?\//, '').toLowerCase();
  const idx = n.indexOf('images/');
  if (idx > 0) n = n.substring(idx);
  return n;
}
```
-/

/-- Line 121's `p.replace(/^\.\.?\//, '')`: strip at most one leading `../` or `./`. -/
def stripDotSlash (p : String) : String :=
  if strStartsWith p "../" then strDrop p 3
  else if strStartsWith p "./" then strDrop p 2
  else p

/-- The source's `normalizeImagePath`: strip one leading `./` or `../`,
lowercase, then truncate before an `images/` occurrence at index > 0.
Note: the source performs no backslash replacement. -/
def normalizeImagePath (p : String) : String :=
  let n := strLower (stripDotSlash p)
  match strIndexOf n "images/" with
  | some idx => if idx > 0 then strDrop n idx else n
  | none => n

example : normalizeImagePath "./Images/Foo.PNG" = "images/foo.png" := by decide
example : normalizeImagePath "images/Foo.PNG" = "images/foo.png" := by decide
example : normalizeImagePath "..\\images\\Foo.PNG" = "..\\images\\foo.png" := by decide

/-! ## Multer file model

`multer` delivers each uploaded part as `{ fieldname, originalname, buffer }`;
the buffer is a byte list.  (Multer parts are always files — there is no
directory entry in this transport.) -/

structure MulterFile where
  fieldname : String
  originalname : String
  buffer : List Nat
deriving Repr, DecidableEq

/-! ## ImageCollector — `isImageFile` (lines 114–117) and the
`imageFiles` filter (lines 234–245) -/

/-- The final `/`-delimited segment of `s` (Node `path.basename` on posix). -/
def lastSegment (s : String) : String :=
  strDrop s (afterLastSlashIdx s)

/-- Node `path.extname`: from the last `.` of the final path segment to the
end; empty when the segment has no dot or only a leading dot (and for the
special all-dots segment `..`). -/
def extname (s : String) : String :=
  let base := lastSegment s
  if base = ".." then ""
  else
    match idxOfL ['.'] base.data.reverse with
    | some i =>
      let dotIdx := base.data.length - 1 - i
      if dotIdx = 0 then "" else strDrop base dotIdx
    | none => ""

example : extname "images/photo.PNG" = ".PNG" := by decide
example : extname "archive/.bashrc" = "" := by decide
example : extname "noext" = "" := by decide

/-- Helper `isImageFile` (lines 114–117): extension is one of the five image
extensions, case-insensitively. -/
def isImageFile (filename : String) : Bool :=
  let ext := strLower (extname filename)
  [".png", ".jpg", ".jpeg", ".gif", ".webp"].contains ext

/-- Line 239: `file.originalname.toLowerCase().replace(/\\/g, '/')`. -/
def slashLower (s : String) : String :=
  String.mk ((strLower s).data.map fun c => if c = '\\' then '/' else c)

/-- The `isInImagesDir` test inside the `imageFiles` filter (lines 239–244):
lowercase, replace every backslash by a forward slash, then accept when the
result contains `images/`, or the multipart field name is exactly `images`,
or the result starts with `images/`. -/
def isInImagesDir (file : MulterFile) : Bool :=
  let normalizedPath := slashLower file.originalname
  strContains normalizedPath "images/" || file.fieldname = "images"
    || strStartsWith normalizedPath "images/"

/-- The `imageFiles` filter (lines 234–245). -/
def imageFilesOf (files : List MulterFile) : List MulterFile :=
  files.filter fun file => isImageFile file.originalname && isInImagesDir file

/-! ## DocumentSelector — `htmlFile` selection (lines 207–215) -/

/-- Rule 1 of the selection chain: lowercased name is `index.html` or
contains `index.html`. -/
def matchesIndexHtml (file : MulterFile) : Bool :=
  let name := strLower file.originalname
  name = "index.html" || strContains name "index.html"

/-- Rule 2: lowercased name is `email.html` or contains `email.html`. -/
def matchesEmailHtml (file : MulterFile) : Bool :=
  let name := strLower file.originalname
  name = "email.html" || strContains name "email.html"

/-- Rule 3: lowercased name ends with `.html`. -/
def matchesAnyHtml (file : MulterFile) : Bool :=
  strEndsWith (strLower file.originalname) ".html"

/-- The `htmlFile` selection (lines 207–215): three chained `Array.find`
calls joined by `||`. -/
def selectHtmlFile (files : List MulterFile) : Option MulterFile :=
  (files.find? matchesIndexHtml).orElse fun _ =>
    (files.find? matchesEmailHtml).orElse fun _ =>
      files.find? matchesAnyHtml

/-! ## Key derivation in the upload loop (lines 255–261) -/

/-- The `filename` extraction (lines 256–259): when the original name contains a
`/`, keep only what follows the last `/`. -/
def extractFilename (originalname : String) : String :=
  if strContains originalname "/" then
    strDrop originalname (afterLastSlashIdx originalname)
  else originalname

/-- The `imagePath` map key (line 261):
`normalizeImagePath(`images/${filename}`)`. -/
def imagePathOf (file : MulterFile) : String :=
  normalizeImagePath ("images/" ++ extractFilename file.originalname)

example : imagePathOf ⟨"files", "assets/nested/Photo.PNG", [1]⟩ = "images/photo.png" := by
  decide
example : imagePathOf ⟨"files", "Photo.PNG", [1]⟩ = "images/photo.png" := by decide

/-! ## ContentAddressedUploader — `uploadImageToCloudinary` (lines 128–178)

The SHA-256 hex digest (`crypto`, external) is a parameter `digest`; the
Cloudinary backend (`cloudinary.api.resource` probe and
`cloudinary.uploader.upload_stream`, external) enters as `probe` and `store`
parameters. -/

/-- Line 129: `crypto.createHash('sha256').update(buffer).digest('hex').slice(0, 16)`. -/
def contentHash (digest : List Nat → String) (buffer : List Nat) : String :=
  strTake (digest buffer) 16

/-- Line 130: the storage key `emails/${hash}`. -/
def publicIdOf (digest : List Nat → String) (buffer : List Nat) : String :=
  "emails/" ++ contentHash digest buffer

/-- Outcome of the `cloudinary.api.resource(publicId)` existence probe:
the asset exists (with its `secure_url`), a 404 `http_code`, or any other
failure. -/
inductive ProbeResult where
  | found (url : String)
  | notFound404
  | err (e : String)
deriving Repr, DecidableEq

/-- Function `uploadImageToCloudinary` (lines 128–178).  In signed mode the storage
key is probed first: a hit returns the existing `secure_url`; a 404 falls
through to the upload; any other probe failure is rethrown.  `filename`
appears in the source only inside `console.log` calls. -/
def uploadImageToCloudinary (useSignedUpload : Bool)
    (probe : String → ProbeResult) (store : String → List Nat → Except String String)
    (digest : List Nat → String) (buffer : List Nat) (filename : String) :
    Except String String :=
  let _ := filename
  let publicId := publicIdOf digest buffer
  if useSignedUpload then
    match probe publicId with
    | .found url => .ok url
    | .notFound404 => store publicId buffer
    | .err e => .error e
  else store publicId buffer

/-- Instrumented backend state: the assets already stored (key ↦
`secure_url`) and a counter of upload calls actually performed. -/
structure CloudState where
  assets : List (String × String)
  storeCalls : Nat
deriving Repr, DecidableEq

/-- Backend probe over the instrumented state. -/
def probeSt (s : CloudState) (key : String) : ProbeResult :=
  match s.assets.lookup key with
  | some url => .found url
  | none => .notFound404

/-- Backend store over the instrumented state: records the asset under a
URL determined by its key and counts the call. -/
def storeSt (urlOf : String → String) (s : CloudState) (key : String) :
    CloudState × String :=
  (⟨(key, urlOf key) :: s.assets, s.storeCalls + 1⟩, urlOf key)

/-- Signed-mode `uploadImageToCloudinary` run against the instrumented
backend, threading the state. -/
def uploadSignedSt (urlOf : String → String) (digest : List Nat → String)
    (s : CloudState) (buffer : List Nat) : CloudState × String :=
  let publicId := publicIdOf digest buffer
  match probeSt s publicId with
  | .found url => (s, url)
  | _ => storeSt urlOf s publicId

/-! ## HtmlRewriter — the cheerio traversals (lines 310–337)

cheerio's parser and serializer are external; the repository's own logic is
the per-element decision, modelled on an element with a tag and an
attribute list. -/

structure Elem where
  tag : String
  attrs : List (String × String)
deriving Repr, DecidableEq

/-- Attribute read `$elem.attr(name)`. -/
def getAttr (e : Elem) (name : String) : Option String :=
  (e.attrs.find? fun a => a.1 = name).map (·.2)

/-- Attribute write `$elem.attr(name, val)`. -/
def setAttr (e : Elem) (name val : String) : Elem :=
  ⟨e.tag, e.attrs.map fun a => if a.1 = name then (a.1, val) else a⟩

/-- Body of the `$('img').each` callback (lines 310–322), for the `src`
attribute. -/
def rewriteImgSrc (getUrl : String → Option String) (e : Elem) : Elem :=
  match getAttr e "src" with
  | none => e
  | some src =>
    let normalized := normalizeImagePath src
    if strStartsWith normalized "images/" then
      match getUrl normalized with
      | some cloudinaryUrl => setAttr e "src" cloudinaryUrl
      | none => e
    else e

/-- Body of the `$('link[rel="preload"][as="image"]').each` callback
(lines 325–337), for the `href` attribute. -/
def rewritePreloadHref (getUrl : String → Option String) (e : Elem) : Elem :=
  match getAttr e "href" with
  | none => e
  | some href =>
    let normalized := normalizeImagePath href
    if strStartsWith normalized "images/" then
      match getUrl normalized with
      | some cloudinaryUrl => setAttr e "href" cloudinaryUrl
      | none => e
    else e

/-- The cheerio selector `link[rel="preload"][as="image"]`. -/
def isPreloadImageLink (e : Elem) : Bool :=
  e.tag = "link" && getAttr e "rel" = some "preload" && getAttr e "as" = some "image"

/-- Both traversals combined on one element (tags are disjoint, so the two
`each` passes act independently). -/
def rewriteElem (getUrl : String → Option String) (e : Elem) : Elem :=
  let e1 := if e.tag = "img" then rewriteImgSrc getUrl e else e
  if isPreloadImageLink e1 then rewritePreloadHref getUrl e1 else e1

/-- The full rewrite over the parsed document. -/
def rewriteDoc (getUrl : String → Option String) (doc : List Elem) : List Elem :=
  doc.map (rewriteElem getUrl)

/-! ## ConversionOrchestrator — the `/api/process` handler (lines 198–362) -/

/-- JS object mutation `m[k] = v` is an append; reading takes the latest
binding for the key. -/
def lookupLast (m : List (String × String)) (k : String) : Option String :=
  match m with
  | [] => none
  | (k1, v1) :: rest =>
    match lookupLast rest k with
    | some v => some v
    | none => if k1 = k then some v1 else none

/-- The handler's observable outcome: a 200 JSON success payload, a 400
client error, or a 500 server error. -/
inductive ProcessResult where
  | ok (html : String) (imageCount : Nat)
  | clientError (msg : String)
  | serverError (msg : String)
deriving Repr, DecidableEq

/-- Models `Buffer.toString('utf-8')` for ASCII payloads. -/
def bufferToString (buffer : List Nat) : String :=
  String.mk (buffer.map Char.ofNat)

/-- The catch-branch of the upload loop (lines 276–295): the 500 response
picked by inspecting the error text. -/
def uploadErrorResult (filename e : String) : ProcessResult :=
  if strContains e "Invalid API Key" || strContains e "401" then
    .serverError ("Cloudinary authentication failed. Please check your API credentials in .env file. Original error: " ++ e)
  else if strContains e "Invalid upload preset" then
    .serverError ("Invalid Cloudinary upload preset. Please check CLOUDINARY_UPLOAD_PRESET in .env file. Original error: " ++ e)
  else
    .serverError ("Failed to upload image " ++ filename ++ ": " ++ e)

/-- The upload loop (lines 254–296): for each collected image in order,
derive `filename` (`extractFilename`) and `imagePath` (`imagePathOf`),
reject an empty buffer with a 400, await the upload, and on failure return
the 500 from `uploadErrorResult`; on success extend `imageUrlMap` and
continue. -/
def uploadImages (uploadFn : List Nat → String → Except String String) :
    List MulterFile → List (String × String) →
    Except ProcessResult (List (String × String))
  | [], m => .ok m
  | file :: rest, m =>
    if file.buffer.isEmpty then
      .error (.clientError
        ("Image file " ++ extractFilename file.originalname ++ " is empty or corrupted"))
    else
      match uploadFn file.buffer (extractFilename file.originalname) with
      | .ok cloudinaryUrl =>
        uploadImages uploadFn rest (m ++ [(imagePathOf file, cloudinaryUrl)])
      | .error e => .error (uploadErrorResult (extractFilename file.originalname) e)

/-- The `/api/process` handler (lines 198–347).  `uploadFn` stands for
`uploadImageToCloudinary` with the backend fixed; `parse` and `serialize`
stand for `cheerio.load` and `$.html()` (external). -/
def processRequest (uploadFn : List Nat → String → Except String String)
    (parse : String → List Elem) (serialize : List Elem → String)
    (files : List MulterFile) : ProcessResult :=
  if files.isEmpty then .clientError "No files uploaded"
  else
    match selectHtmlFile files with
    | none => .clientError "No HTML file found. Please ensure your folder/ZIP contains an HTML file (index.html, email.html, etc.)"
    | some htmlFile =>
      if (strTrim (bufferToString htmlFile.buffer)).data.isEmpty then
        .clientError "index.html file is empty"
      else if (imageFilesOf files).isEmpty then
        .clientError "No image files found in images/ directory"
      else
        match uploadImages uploadFn (imageFilesOf files) [] with
        | .error r => r
        | .ok imageUrlMap =>
          .ok (serialize (rewriteDoc (lookupLast imageUrlMap)
                (parse (bufferToString htmlFile.buffer))))
            (imageFilesOf files).length

/-! ## Spec-side definitions (for refinement comparisons)

These follow the specification's wording, to be compared with the
definitions embedded from the source. -/

/-- Spec §4.1 steps (2)–(4) as amended: lowercase the full string. -/
def specLower (p : String) : String :=
  String.mk (p.data.map Char.toLower)

/-- Spec §4.1 step (3): strip at most one leading `./` or `../`. -/
def specStrip (p : String) : String :=
  if strStartsWith p "./" then strDrop p 2
  else if strStartsWith p "../" then strDrop p 3
  else p

/-- Spec §4.1 step (4): when `images/` occurs at a position greater than
zero, keep from that occurrence onward. -/
def specTruncateAtImages (p : String) : String :=
  match strIndexOf p "images/" with
  | some idx => if 0 < idx then strDrop p idx else p
  | none => p

/-- The amended §4.1 pipeline: strip one leading `./` or `../`, lowercase,
truncate before an interior `images/` occurrence — with no backslash
replacement step. -/
def specNormalizeAmended (p : String) : String :=
  specTruncateAtImages (specLower (specStrip p))

/-! ## Helper lemmas -/

theorem isPrefixL_append (pat rest : List Char) : isPrefixL pat (pat ++ rest) = true := by
  induction pat with
  | nil => simp [isPrefixL]
  | cons a as ih => simp [isPrefixL, ih]

theorem idxOfL_isSome_of_pre (pat l : List Char) (h : isPrefixL pat l = true) :
    (idxOfL pat l).isSome = true := by
  cases l with
  | nil =>
    cases pat with
    | nil => simp [idxOfL]
    | cons a as => simp [isPrefixL] at h
  | cons c rest => simp [idxOfL, h]

theorem idxOfL_single_isSome_iff (c : Char) (l : List Char) :
    (idxOfL [c] l).isSome = true ↔ c ∈ l := by
  induction l with
  | nil => simp [idxOfL]
  | cons a t ih =>
    by_cases hc : c = a
    · subst hc
      simp [idxOfL, isPrefixL]
    · have hpre : isPrefixL [c] (a :: t) = false := by
        simp [isPrefixL, hc]
      simp [idxOfL, hpre, Option.isSome_map, ih, hc]

theorem not_prefix_dot_slash (l : List Char)
    (h : isPrefixL ['.', '.', '/'] l = true) : isPrefixL ['.', '/'] l = false := by
  match l with
  | [] => simp [isPrefixL] at h
  | [c] => simp [isPrefixL] at h
  | c1 :: c2 :: rest =>
    simp only [isPrefixL, Bool.and_eq_true, decide_eq_true_eq] at h
    have hc2 : c2 = '.' := h.2.1.symm
    subst hc2
    simp [isPrefixL]

theorem stripDotSlash_eq_specStrip (p : String) : stripDotSlash p = specStrip p := by
  unfold stripDotSlash specStrip
  by_cases h1 : strStartsWith p "../" = true
  · have h2 : strStartsWith p "./" = false := not_prefix_dot_slash p.data h1
    simp [h1, h2]
  · by_cases h2 : strStartsWith p "./" = true
    · simp [h1, h2]
    · simp [h1, h2]

/-! ## C1 — PathNormalizer -/

/-- C1 counterexample: the claim requires backslash replacement, but
`normalizeImagePath` performs none, so `normalize("..\\images\\Foo.PNG")`
is `"..\\images\\foo.png"`, not `"images/foo.png"`. -/
theorem C1_counterexample :
    normalizeImagePath "..\\images\\Foo.PNG" = "..\\images\\foo.png" ∧
    normalizeImagePath "..\\images\\Foo.PNG" ≠ "images/foo.png" := by
  refine ⟨by decide, by decide⟩

/-- C1 (amended): `normalizeImagePath` is total and deterministic and
computes its result by (1) stripping at most one leading `./` or `../`,
(2) lowercasing the full string, (3) truncating everything before an
`images/` occurrence at position greater than zero; backslashes are never
replaced.  `normalize("./Images/Foo.PNG")` and `normalize("images/Foo.PNG")`
equal `"images/foo.png"`, while `normalize("..\\images\\Foo.PNG")` equals
`"..\\images\\foo.png"`. -/
theorem C1_normalize_amended :
    (∀ p : String, normalizeImagePath p = specNormalizeAmended p) ∧
    normalizeImagePath "./Images/Foo.PNG" = "images/foo.png" ∧
    normalizeImagePath "images/Foo.PNG" = "images/foo.png" ∧
    normalizeImagePath "..\\images\\Foo.PNG" = "..\\images\\foo.png" := by
  refine ⟨?_, by decide, by decide, by decide⟩
  intro p
  unfold normalizeImagePath specNormalizeAmended specTruncateAtImages specLower strLower
  rw [stripDotSlash_eq_specStrip]

/-! ## C3 — content-addressed identifier -/

/-- Concrete digest used by witnesses: a fixed 64-character hex string. -/
def wDigest : List Nat → String := fun _ =>
  "aaaaaaaaaaaaaaaaaaaaaaaaaaaaaaaaaaaaaaaaaaaaaaaaaaaaaaaaaaaaaaaa"

/-- Concrete probe used by witnesses: always a 404. -/
def wProbe : String → ProbeResult := fun _ => ProbeResult.notFound404

/-- Concrete store used by witnesses: URL determined by the key. -/
def wStore : String → List Nat → Except String String := fun k _ =>
  Except.ok ("https://cdn/" ++ k)

/-- C3: byte-identical buffers yield the same content identifier (a
16-character prefix of the digest of the bytes) and the same
`emails/{id}` storage key, independent of filename, so the uploader
resolves them identically. -/
theorem C3_content_addressing (digest : List Nat → String) (useSignedUpload : Bool)
    (probe : String → ProbeResult) (store : String → List Nat → Except String String)
    (b1 b2 : List Nat) (f1 f2 : String)
    (hb : b1 = b2) (hlen : (digest b1).data.length = 64) :
    contentHash digest b1 = contentHash digest b2 ∧
    (contentHash digest b1).data.length = 16 ∧
    publicIdOf digest b1 = publicIdOf digest b2 ∧
    uploadImageToCloudinary useSignedUpload probe store digest b1 f1 =
      uploadImageToCloudinary useSignedUpload probe store digest b2 f2 := by
  subst hb
  refine ⟨rfl, ?_, rfl, rfl⟩
  simp [contentHash, strTake, List.length_take, hlen]

/-- Witness for C3 at concrete bytes `[7, 7]` and two different
filenames. -/
theorem C3_content_addressing_witness :
    contentHash wDigest [7, 7] = contentHash wDigest [7, 7] ∧
    (contentHash wDigest [7, 7]).data.length = 16 ∧
    publicIdOf wDigest [7, 7] = publicIdOf wDigest [7, 7] ∧
    uploadImageToCloudinary true wProbe wStore wDigest [7, 7] "a.png" =
      uploadImageToCloudinary true wProbe wStore wDigest [7, 7] "B.PNG" :=
  C3_content_addressing wDigest true wProbe wStore [7, 7] [7, 7] "a.png" "B.PNG" rfl
    (by decide)

/-! ## C4 — DocumentSelector -/

/-- Spec §4.4: the first entry of the list satisfying `p`, by list order. -/
def firstMatching (p : MulterFile → Bool) : List MulterFile → Option MulterFile
  | [] => none
  | f :: rest => if p f then some f else firstMatching p rest

/-- DocumentSelector as §4.4 words it: try rule 1 (`index.html` exact name
or substring), then rule 2 (`email.html`), then rule 3 (`.html` suffix),
taking the first list entry matching the earliest applicable rule. -/
def specSelect (files : List MulterFile) : Option MulterFile :=
  match firstMatching matchesIndexHtml files with
  | some g => some g
  | none =>
    match firstMatching matchesEmailHtml files with
    | some g => some g
    | none => firstMatching matchesAnyHtml files

theorem find?_eq_firstMatching (p : MulterFile → Bool) (files : List MulterFile) :
    files.find? p = firstMatching p files := by
  induction files with
  | nil => rfl
  | cons f rest ih =>
    by_cases h : p f = true
    · simp [List.find?, firstMatching, h]
    · simp only [Bool.not_eq_true] at h
      simp [List.find?, firstMatching, h, ih]

/-- C4: `selectHtmlFile` implements exactly the three-rule fallback order of
§4.4 (first `index.html`-matching entry, else first `email.html`-matching
entry, else first `.html`-suffixed entry, else none); when nothing matches
it yields none and the handler reports the no-document client error; on the
spec's two-candidate example the `index.html`-matching entry wins in either
order. -/
theorem C4_document_selection :
    (∀ files : List MulterFile, selectHtmlFile files = specSelect files) ∧
    (∀ files : List MulterFile, selectHtmlFile files = none ↔
      ∀ f ∈ files, matchesIndexHtml f = false ∧ matchesEmailHtml f = false ∧
        matchesAnyHtml f = false) ∧
    (∀ (uploadFn : List Nat → String → Except String String)
        (parse : String → List Elem) (serialize : List Elem → String)
        (files : List MulterFile), files ≠ [] → selectHtmlFile files = none →
      processRequest uploadFn parse serialize files =
        ProcessResult.clientError "No HTML file found. Please ensure your folder/ZIP contains an HTML file (index.html, email.html, etc.)") ∧
    selectHtmlFile [⟨"files", "assets/index.html", [10]⟩, ⟨"files", "email.html", [11]⟩] =
      some ⟨"files", "assets/index.html", [10]⟩ ∧
    selectHtmlFile [⟨"files", "email.html", [11]⟩, ⟨"files", "assets/index.html", [10]⟩] =
      some ⟨"files", "assets/index.html", [10]⟩ := by
  refine ⟨?_, ?_, ?_, by decide, by decide⟩
  · intro files
    unfold selectHtmlFile specSelect
    rw [find?_eq_firstMatching, find?_eq_firstMatching, find?_eq_firstMatching]
    cases firstMatching matchesIndexHtml files with
    | some g => rfl
    | none =>
      cases firstMatching matchesEmailHtml files with
      | some g => rfl
      | none => rfl
  · intro files
    unfold selectHtmlFile
    constructor
    · intro h f hf
      cases h1 : files.find? matchesIndexHtml with
      | some g => simp [h1, Option.orElse] at h
      | none =>
        cases h2 : files.find? matchesEmailHtml with
        | some g => simp [h1, h2, Option.orElse] at h
        | none =>
          cases h3 : files.find? matchesAnyHtml with
          | some g => simp [h1, h2, h3, Option.orElse] at h
          | none =>
            have e1 := List.find?_eq_none.mp h1 f hf
            have e2 := List.find?_eq_none.mp h2 f hf
            have e3 := List.find?_eq_none.mp h3 f hf
            simp only [Bool.not_eq_true] at e1 e2 e3
            exact ⟨e1, e2, e3⟩
    · intro h
      have h1 : files.find? matchesIndexHtml = none :=
        List.find?_eq_none.mpr fun f hf => by simp [(h f hf).1]
      have h2 : files.find? matchesEmailHtml = none :=
        List.find?_eq_none.mpr fun f hf => by simp [(h f hf).2.1]
      have h3 : files.find? matchesAnyHtml = none :=
        List.find?_eq_none.mpr fun f hf => by simp [(h f hf).2.2]
      simp [h1, h2, h3, Option.orElse]
  · intro uploadFn parse serialize files hne hnone
    unfold processRequest
    simp [hne, hnone]

/-- Witness for C4: a single non-HTML file selects nothing and the handler
answers with the no-document client error. -/
theorem C4_document_selection_witness :
    processRequest (fun _ _ => Except.ok "u") (fun _ => []) (fun _ => "")
        [⟨"files", "readme.txt", [1]⟩] =
      ProcessResult.clientError "No HTML file found. Please ensure your folder/ZIP contains an HTML file (index.html, email.html, etc.)" :=
  C4_document_selection.2.2.1 (fun _ _ => Except.ok "u") (fun _ => []) (fun _ => "")
    [⟨"files", "readme.txt", [1]⟩] (by decide) (by decide)

/-! ## C5 — ImageCollector -/

/-- The §4.2 collection predicate as the spec words it: image extension and
(normalized path per §4.1 starts with `images/`, or the declared multipart
field name equals `images`).  (The multipart transport delivers only files,
so the spec's "not a directory" conjunct is vacuous here.) -/
def specCollectAccepts (file : MulterFile) : Bool :=
  isImageFile file.originalname &&
    (strStartsWith (normalizeImagePath file.originalname) "images/"
      || file.fieldname = "images")

/-- C5 counterexample: a backslash-separated image path is accepted by the
source's filter (which replaces backslashes before testing) but rejected by
the spec's predicate (whose §4.1 normalization replaces none). -/
theorem C5_counterexample :
    imageFilesOf [⟨"files", "images\\Photo.png", [1]⟩] =
      [⟨"files", "images\\Photo.png", [1]⟩] ∧
    specCollectAccepts ⟨"files", "images\\Photo.png", [1]⟩ = false := by
  refine ⟨by decide, by decide⟩

theorem isInImagesDir_iff (file : MulterFile) :
    isInImagesDir file = true ↔
      (strContains (slashLower file.originalname) "images/" = true ∨
        file.fieldname = "images") := by
  unfold isInImagesDir
  simp only [Bool.or_eq_true, decide_eq_true_eq]
  constructor
  · rintro ((h | h) | h)
    · exact Or.inl h
    · exact Or.inr h
    · exact Or.inl (idxOfL_isSome_of_pre _ _ h)
  · rintro (h | h)
    · exact Or.inl (Or.inl h)
    · exact Or.inl (Or.inr h)

/-- C5 (amended): an entry is collected iff its extension is one of
`{png, jpg, jpeg, gif, webp}` (case-insensitive) and either its lowercased,
backslash-to-slash path contains `images/` or its multipart field name
equals `images`; and when zero entries are collected the handler reports
the no-images client error instead of proceeding. -/
theorem C5_image_collection_amended :
    (∀ (files : List MulterFile) (file : MulterFile),
      file ∈ imageFilesOf files ↔
        file ∈ files ∧ isImageFile file.originalname = true ∧
          (strContains (slashLower file.originalname) "images/" = true ∨
            file.fieldname = "images")) ∧
    (∀ (uploadFn : List Nat → String → Except String String)
        (parse : String → List Elem) (serialize : List Elem → String)
        (files : List MulterFile) (htmlFile : MulterFile),
      files ≠ [] → selectHtmlFile files = some htmlFile →
      (strTrim (bufferToString htmlFile.buffer)).data ≠ [] →
      imageFilesOf files = [] →
      processRequest uploadFn parse serialize files =
        ProcessResult.clientError "No image files found in images/ directory") := by
  constructor
  · intro files file
    unfold imageFilesOf
    rw [List.mem_filter]
    simp only [Bool.and_eq_true]
    constructor
    · rintro ⟨hmem, himg, hdir⟩
      exact ⟨hmem, himg, (isInImagesDir_iff file).mp hdir⟩
    · rintro ⟨hmem, himg, hdir⟩
      exact ⟨hmem, himg, (isInImagesDir_iff file).mpr hdir⟩
  · intro uploadFn parse serialize files htmlFile hne hsel htrim himg
    unfold processRequest
    simp [hne, hsel, htrim, himg]

/-- Witness for C5's amended claim: an HTML-only upload yields the
no-images client error. -/
theorem C5_image_collection_amended_witness :
    processRequest (fun _ _ => Except.ok "u") (fun _ => []) (fun _ => "")
        [⟨"files", "index.html", [60, 112, 62]⟩] =
      ProcessResult.clientError "No image files found in images/ directory" :=
  C5_image_collection_amended.2 (fun _ _ => Except.ok "u") (fun _ => []) (fun _ => "")
    [⟨"files", "index.html", [60, 112, 62]⟩] ⟨"files", "index.html", [60, 112, 62]⟩
    (by decide) (by decide) (by decide) (by decide)

/-! ## C8 — ImageUrlMap key derivation -/

theorem idxOfL_single_append (c : Char) (l r : List Char) (h : c ∉ l) :
    idxOfL [c] (l ++ c :: r) = some l.length := by
  induction l with
  | nil => simp [idxOfL, isPrefixL]
  | cons a t ih =>
    have hca : ¬(c = a) := fun hc => h (hc ▸ List.mem_cons_self a t)
    have hct : c ∉ t := fun hm => h (List.mem_cons_of_mem a hm)
    simp [idxOfL, isPrefixL, hca, ih hct]

theorem extractFilename_append (dir name : String)
    (h : strContains name "/" = false) : extractFilename (dir ++ "/" ++ name) = name := by
  have hmemname : '/' ∉ name.data := by
    intro hm
    have := (idxOfL_single_isSome_iff '/' name.data).mpr hm
    rw [show strContains name "/" = (idxOfL ['/'] name.data).isSome from rfl, this] at h
    cases h
  have hdata : (dir ++ "/" ++ name).data = dir.data ++ '/' :: name.data := by
    simp [String.data_append]
  have hcond : strContains (dir ++ "/" ++ name) "/" = true := by
    rw [show strContains (dir ++ "/" ++ name) "/"
          = (idxOfL ['/'] (dir ++ "/" ++ name).data).isSome from rfl, hdata]
    exact (idxOfL_single_isSome_iff _ _).mpr (by simp)
  have hrev : (dir ++ "/" ++ name).data.reverse
      = name.data.reverse ++ '/' :: dir.data.reverse := by
    rw [hdata]; simp
  have hidx : idxOfL ['/'] (dir ++ "/" ++ name).data.reverse
      = some name.data.length := by
    rw [hrev, idxOfL_single_append '/' _ _ (by simp [hmemname])]
    simp
  have hlast : afterLastSlashIdx (dir ++ "/" ++ name) = dir.data.length + 1 := by
    unfold afterLastSlashIdx
    rw [hidx, hdata]
    simp
    omega
  unfold extractFilename
  rw [hcond]
  simp only [if_true]
  unfold strDrop
  rw [hlast, hdata]
  rw [show dir.data ++ '/' :: name.data = (dir.data ++ ['/']) ++ name.data by simp]
  rw [show dir.data.length + 1 = (dir.data ++ ['/']).length by simp]
  rw [List.drop_left]

theorem normalize_images_key (fn : String) :
    normalizeImagePath ("images/" ++ fn) = "images/" ++ strLower fn := by
  have hdata : ("images/" ++ fn).data = "images/".data ++ fn.data := String.data_append _ _
  have hstrip : stripDotSlash ("images/" ++ fn) = "images/" ++ fn := by
    unfold stripDotSlash strStartsWith
    rw [hdata]
    simp [isPrefixL]
  have hlower : strLower ("images/" ++ fn) = "images/" ++ strLower fn := by
    apply String.ext
    show (("images/" ++ fn).data.map Char.toLower) = ("images/" ++ strLower fn).data
    rw [hdata, String.data_append, List.map_append]
    rw [show ("images/".data.map Char.toLower) = "images/".data by decide]
    rfl
  have hidx : strIndexOf ("images/" ++ strLower fn) "images/" = some 0 := by
    unfold strIndexOf
    rw [String.data_append]
    show idxOfL "images/".data ("images/".data ++ (strLower fn).data) = some 0
    rw [show ("images/".data ++ (strLower fn).data)
          = 'i' :: ("mages/".data ++ (strLower fn).data) by simp]
    unfold idxOfL
    rw [show ('i' :: ("mages/".data ++ (strLower fn).data))
          = "images/".data ++ (strLower fn).data by simp]
    rw [isPrefixL_append]
    simp
  unfold normalizeImagePath
  rw [hstrip, hlower]
  simp [hidx]

/-- C8: each collected image's map key is built by taking the final
`/`-delimited segment of its original path and normalizing
`images/<basename>`; the result is the canonical `images/` ++ lowercased
basename, so it starts with `images/` and is independent of the original
directory nesting. -/
theorem C8_map_key_derivation :
    (∀ file : MulterFile,
      imagePathOf file = normalizeImagePath ("images/" ++ extractFilename file.originalname)) ∧
    (∀ dir name : String, strContains name "/" = false →
      extractFilename (dir ++ "/" ++ name) = name) ∧
    (∀ file : MulterFile,
      imagePathOf file = "images/" ++ strLower (extractFilename file.originalname)) ∧
    (∀ file : MulterFile, strStartsWith (imagePathOf file) "images/" = true) := by
  refine ⟨fun _ => rfl, extractFilename_append, ?_, ?_⟩
  · intro file
    exact normalize_images_key (extractFilename file.originalname)
  · intro file
    rw [show imagePathOf file
          = "images/" ++ strLower (extractFilename file.originalname) from
        normalize_images_key _]
    unfold strStartsWith
    rw [String.data_append]
    exact isPrefixL_append _ _

/-- Witness for C8 at a nested original path. -/
theorem C8_map_key_derivation_witness :
    extractFilename ("assets/deep" ++ "/" ++ "Photo.PNG") = "Photo.PNG" ∧
    imagePathOf ⟨"files", "assets/deep/Photo.PNG", [1]⟩ =
      "images/" ++ strLower (extractFilename "assets/deep/Photo.PNG") :=
  ⟨C8_map_key_derivation.2.1 "assets/deep" "Photo.PNG" (by decide),
    C8_map_key_derivation.2.2.1 ⟨"files", "assets/deep/Photo.PNG", [1]⟩⟩

/-! ## C2 — HtmlRewriter -/

theorem tag_setAttr (e : Elem) (name val : String) : (setAttr e name val).tag = e.tag := rfl

theorem tag_rewriteImgSrc (g : String → Option String) (e : Elem) :
    (rewriteImgSrc g e).tag = e.tag := by
  unfold rewriteImgSrc
  cases getAttr e "src" with
  | none => rfl
  | some src =>
    by_cases h : strStartsWith (normalizeImagePath src) "images/" = true
    · simp only [h, if_true]
      cases g (normalizeImagePath src) <;> rfl
    · simp only [Bool.not_eq_true] at h
      simp [h]

theorem rewriteElem_img (g : String → Option String) (e : Elem) (htag : e.tag = "img") :
    rewriteElem g e = rewriteImgSrc g e := by
  unfold rewriteElem
  simp only [htag, if_true]
  have hlink : isPreloadImageLink (rewriteImgSrc g e) = false := by
    unfold isPreloadImageLink
    rw [tag_rewriteImgSrc, htag]
    simp
  simp [hlink, htag]

theorem rewriteElem_preload (g : String → Option String) (e : Elem)
    (hlink : isPreloadImageLink e = true) :
    rewriteElem g e = rewritePreloadHref g e := by
  have htag : e.tag = "link" := by
    unfold isPreloadImageLink at hlink
    simp only [Bool.and_eq_true, decide_eq_true_eq] at hlink
    exact hlink.1.1
  unfold rewriteElem
  rw [htag]
  simp [hlink, htag]

/-- C2: the rewrite maps over the document element-wise; an `img`'s `src`
(and a preload-image `link`'s `href`) is replaced by the mapped URL exactly
when the attribute is present, its normalized form starts with `images/`,
and the map has an entry for it; in every other case — attribute absent,
not `images/`-prefixed, or unmapped — the element is returned unchanged,
and elements of any other shape are untouched. -/
theorem C2_html_rewriting :
    (∀ (g : String → Option String) (doc : List Elem),
      rewriteDoc g doc = doc.map (rewriteElem g)) ∧
    (∀ (g : String → Option String) (e : Elem) (src url : String),
      e.tag = "img" → getAttr e "src" = some src →
      strStartsWith (normalizeImagePath src) "images/" = true →
      g (normalizeImagePath src) = some url →
      rewriteElem g e = setAttr e "src" url) ∧
    (∀ (g : String → Option String) (e : Elem),
      e.tag = "img" → getAttr e "src" = none → rewriteElem g e = e) ∧
    (∀ (g : String → Option String) (e : Elem) (src : String),
      e.tag = "img" → getAttr e "src" = some src →
      (strStartsWith (normalizeImagePath src) "images/" = false ∨
        g (normalizeImagePath src) = none) →
      rewriteElem g e = e) ∧
    (∀ (g : String → Option String) (e : Elem) (href url : String),
      isPreloadImageLink e = true → getAttr e "href" = some href →
      strStartsWith (normalizeImagePath href) "images/" = true →
      g (normalizeImagePath href) = some url →
      rewriteElem g e = setAttr e "href" url) ∧
    (∀ (g : String → Option String) (e : Elem),
      isPreloadImageLink e = true → getAttr e "href" = none → rewriteElem g e = e) ∧
    (∀ (g : String → Option String) (e : Elem) (href : String),
      isPreloadImageLink e = true → getAttr e "href" = some href →
      (strStartsWith (normalizeImagePath href) "images/" = false ∨
        g (normalizeImagePath href) = none) →
      rewriteElem g e = e) ∧
    (∀ (g : String → Option String) (e : Elem),
      e.tag ≠ "img" → isPreloadImageLink e = false → rewriteElem g e = e) := by
  refine ⟨fun _ _ => rfl, ?_, ?_, ?_, ?_, ?_, ?_, ?_⟩
  · intro g e src url htag hsrc hpre hmap
    rw [rewriteElem_img g e htag]
    unfold rewriteImgSrc
    rw [hsrc]
    simp [hpre, hmap]
  · intro g e htag hsrc
    rw [rewriteElem_img g e htag]
    unfold rewriteImgSrc
    rw [hsrc]
  · intro g e src htag hsrc hfail
    rw [rewriteElem_img g e htag]
    unfold rewriteImgSrc
    rw [hsrc]
    rcases hfail with h | h
    · simp [h]
    · simp [h]
  · intro g e href url hlink hhref hpre hmap
    rw [rewriteElem_preload g e hlink]
    unfold rewritePreloadHref
    rw [hhref]
    simp [hpre, hmap]
  · intro g e hlink hhref
    rw [rewriteElem_preload g e hlink]
    unfold rewritePreloadHref
    rw [hhref]
  · intro g e href hlink hhref hfail
    rw [rewriteElem_preload g e hlink]
    unfold rewritePreloadHref
    rw [hhref]
    rcases hfail with h | h
    · simp [h]
    · simp [h]
  · intro g e htag hlink
    unfold rewriteElem
    simp [htag, hlink]

/-- Concrete image-URL map used by witnesses. -/
def wGetUrl : String → Option String := fun s =>
  if s = "images/a.png" then some "https://cdn/x" else none

/-- Witness for C2: a mapped `img` is rewritten to the CDN URL; an unmapped
`img` is left unchanged. -/
theorem C2_html_rewriting_witness :
    rewriteElem wGetUrl ⟨"img", [("src", "./Images/A.PNG")]⟩ =
      setAttr ⟨"img", [("src", "./Images/A.PNG")]⟩ "src" "https://cdn/x" ∧
    rewriteElem wGetUrl ⟨"img", [("src", "images/missing.png")]⟩ =
      ⟨"img", [("src", "images/missing.png")]⟩ :=
  ⟨C2_html_rewriting.2.1 wGetUrl ⟨"img", [("src", "./Images/A.PNG")]⟩
      "./Images/A.PNG" "https://cdn/x" rfl rfl (by decide) (by decide),
    C2_html_rewriting.2.2.2.1 wGetUrl ⟨"img", [("src", "images/missing.png")]⟩
      "images/missing.png" rfl rfl (Or.inr (by decide))⟩

/-! ## C6 — any upload failure aborts the conversion -/

theorem uploadErrorResult_ne_ok (filename e html : String) (count : Nat) :
    uploadErrorResult filename e ≠ ProcessResult.ok html count := by
  unfold uploadErrorResult
  split
  · exact fun h => ProcessResult.noConfusion h
  · split
    · exact fun h => ProcessResult.noConfusion h
    · exact fun h => ProcessResult.noConfusion h

theorem uploadImages_error_shape (u : List Nat → String → Except String String)
    (l : List MulterFile) (m0 : List (String × String)) (r : ProcessResult)
    (h : uploadImages u l m0 = Except.error r) :
    ∀ html count, r ≠ ProcessResult.ok html count := by
  induction l generalizing m0 with
  | nil => exact Except.noConfusion h
  | cons a t ih =>
    rw [uploadImages] at h
    by_cases hb : a.buffer.isEmpty = true
    · rw [if_pos hb] at h
      cases h
      intro html count
      exact fun hc => ProcessResult.noConfusion hc
    · rw [if_neg hb] at h
      cases hu : u a.buffer (extractFilename a.originalname) with
      | error e =>
        rw [hu] at h
        cases h
        intro html count
        exact uploadErrorResult_ne_ok _ _ _ _
      | ok url =>
        rw [hu] at h
        exact ih _ h

theorem uploadImages_ok_all (u : List Nat → String → Except String String)
    (l : List MulterFile) (m0 m : List (String × String))
    (h : uploadImages u l m0 = Except.ok m) :
    ∀ f ∈ l, f.buffer ≠ [] ∧
      ∃ url, u f.buffer (extractFilename f.originalname) = Except.ok url := by
  induction l generalizing m0 with
  | nil => intro f hf; cases hf
  | cons a t ih =>
    intro f hf
    rw [uploadImages] at h
    by_cases hb : a.buffer.isEmpty = true
    · rw [if_pos hb] at h
      exact Except.noConfusion h
    · rw [if_neg hb] at h
      simp only [Bool.not_eq_true] at hb
      cases hu : u a.buffer (extractFilename a.originalname) with
      | error e =>
        rw [hu] at h
        exact Except.noConfusion h
      | ok url =>
        rw [hu] at h
        rcases List.mem_cons.mp hf with rfl | hft
        · exact ⟨fun hnil => by simp [hnil] at hb, url, hu⟩
        · exact ih _ h f hft

/-- C6: whenever some collected image's upload fails, the conversion
returns a typed client or server error — never the success payload. -/
theorem C6_upload_failure_aborts (u : List Nat → String → Except String String)
    (parse : String → List Elem) (serialize : List Elem → String)
    (files : List MulterFile)
    (hfail : ∃ f ∈ imageFilesOf files, ∃ e,
      u f.buffer (extractFilename f.originalname) = Except.error e) :
    ∃ msg, processRequest u parse serialize files = ProcessResult.clientError msg ∨
      processRequest u parse serialize files = ProcessResult.serverError msg := by
  obtain ⟨f, hf, e, he⟩ := hfail
  cases hres : processRequest u parse serialize files with
  | clientError msg => exact ⟨msg, Or.inl rfl⟩
  | serverError msg => exact ⟨msg, Or.inr rfl⟩
  | ok html count =>
    exfalso
    unfold processRequest at hres
    split at hres
    · exact ProcessResult.noConfusion hres
    · split at hres
      · exact ProcessResult.noConfusion hres
      · split at hres
        · exact ProcessResult.noConfusion hres
        · split at hres
          · exact ProcessResult.noConfusion hres
          · split at hres
            · rename_i r herr
              exact uploadImages_error_shape u _ _ r herr html count hres
            · rename_i imageUrlMap hupload
              obtain ⟨-, url, hok⟩ := uploadImages_ok_all u _ _ _ hupload f hf
              rw [hok] at he
              exact Except.noConfusion he

/-- Witness for C6: a request whose only image fails to upload yields a
server error, not a success payload. -/
theorem C6_upload_failure_aborts_witness :
    ∃ msg,
      processRequest (fun _ _ => Except.error "network down") (fun _ => []) (fun _ => "")
          [⟨"files", "index.html", [60, 112, 62]⟩, ⟨"images", "images/a.png", [9]⟩] =
        ProcessResult.clientError msg ∨
      processRequest (fun _ _ => Except.error "network down") (fun _ => []) (fun _ => "")
          [⟨"files", "index.html", [60, 112, 62]⟩, ⟨"images", "images/a.png", [9]⟩] =
        ProcessResult.serverError msg :=
  C6_upload_failure_aborts (fun _ _ => Except.error "network down") (fun _ => []) (fun _ => "")
    [⟨"files", "index.html", [60, 112, 62]⟩, ⟨"images", "images/a.png", [9]⟩]
    ⟨⟨"images", "images/a.png", [9]⟩, by decide, "network down", rfl⟩

/-! ## C7 — existence probe and idempotence in signed mode -/

/-- C7: in signed mode the uploader first probes the storage key — a found
asset short-circuits to its existing URL with no upload, a 404 proceeds to
the upload, and any other probe failure propagates as an error; against a
backend whose probe reflects its stores, uploading the same bytes twice
yields the same URL with exactly one store call. -/
theorem C7_probe_semantics (probe : String → ProbeResult)
    (store : String → List Nat → Except String String)
    (urlOf : String → String) (digest : List Nat → String)
    (s : CloudState) (b : List Nat) (fname : String)
    (_hb : b ≠ []) (hnew : s.assets.lookup (publicIdOf digest b) = none) :
    (∀ url, probe (publicIdOf digest b) = ProbeResult.found url →
      uploadImageToCloudinary true probe store digest b fname = Except.ok url) ∧
    (probe (publicIdOf digest b) = ProbeResult.notFound404 →
      uploadImageToCloudinary true probe store digest b fname =
        store (publicIdOf digest b) b) ∧
    (∀ e, probe (publicIdOf digest b) = ProbeResult.err e →
      uploadImageToCloudinary true probe store digest b fname = Except.error e) ∧
    ((uploadSignedSt urlOf digest s b).2 =
        (uploadSignedSt urlOf digest (uploadSignedSt urlOf digest s b).1 b).2 ∧
      (uploadSignedSt urlOf digest (uploadSignedSt urlOf digest s b).1 b).1.storeCalls =
        s.storeCalls + 1) := by
  refine ⟨?_, ?_, ?_, ?_⟩
  · intro url h
    unfold uploadImageToCloudinary
    simp [h]
  · intro h
    unfold uploadImageToCloudinary
    simp [h]
  · intro e h
    unfold uploadImageToCloudinary
    simp [h]
  · have h1 : uploadSignedSt urlOf digest s b =
        (⟨(publicIdOf digest b, urlOf (publicIdOf digest b)) :: s.assets,
            s.storeCalls + 1⟩,
          urlOf (publicIdOf digest b)) := by
      unfold uploadSignedSt probeSt storeSt
      simp [hnew]
    rw [h1]
    unfold uploadSignedSt probeSt
    simp [List.lookup]

/-- Witness for C7: a fresh backend state, probed 404, stores once; the
second identical upload reuses the URL. -/
theorem C7_probe_semantics_witness :
    uploadImageToCloudinary true wProbe wStore wDigest [1] "a.png" =
      wStore (publicIdOf wDigest [1]) [1] ∧
    (uploadSignedSt id wDigest ⟨[], 0⟩ [1]).2 =
      (uploadSignedSt id wDigest (uploadSignedSt id wDigest ⟨[], 0⟩ [1]).1 [1]).2 ∧
    (uploadSignedSt id wDigest (uploadSignedSt id wDigest ⟨[], 0⟩ [1]).1 [1]).1.storeCalls =
      0 + 1 :=
  ⟨(C7_probe_semantics wProbe wStore id wDigest ⟨[], 0⟩ [1] "a.png" (by decide) rfl).2.1 rfl,
    (C7_probe_semantics wProbe wStore id wDigest ⟨[], 0⟩ [1] "a.png" (by decide) rfl).2.2.2.1,
    (C7_probe_semantics wProbe wStore id wDigest ⟨[], 0⟩ [1] "a.png" (by decide) rfl).2.2.2.2⟩

/-! ## C10 — duplicate basenames: later image silently wins -/

theorem strStartsWith_append (pre rest : String) :
    strStartsWith (pre ++ rest) pre = true := by
  unfold strStartsWith
  rw [String.data_append]
  exact isPrefixL_append _ _

theorem imagePathOf_startsWith (file : MulterFile) :
    strStartsWith (imagePathOf file) "images/" = true := by
  show strStartsWith
    (normalizeImagePath ("images/" ++ extractFilename file.originalname)) "images/" = true
  rw [normalize_images_key]
  exact strStartsWith_append _ _

theorem lookupLast_append_single (m : List (String × String)) (k1 v1 k : String) :
    lookupLast (m ++ [(k1, v1)]) k = if k1 = k then some v1 else lookupLast m k := by
  induction m with
  | nil => by_cases h : k1 = k <;> simp [lookupLast, h]
  | cons a t ih =>
    cases a with
    | mk ak av =>
      simp only [List.cons_append]
      unfold lookupLast
      rw [ih]
      by_cases h : k1 = k
      · simp [h]
      · simp [h, lookupLast]

theorem uploadImages_ok_lookupLast (u : List Nat → String → Except String String)
    (l : List MulterFile) (m0 m : List (String × String)) (k : String)
    (h : uploadImages u l m0 = Except.ok m) :
    (∀ g, (l.filter fun f => imagePathOf f = k).getLast? = some g →
      ∃ url, u g.buffer (extractFilename g.originalname) = Except.ok url ∧
        lookupLast m k = some url) ∧
    ((l.filter fun f => imagePathOf f = k) = [] → lookupLast m k = lookupLast m0 k) := by
  induction l generalizing m0 with
  | nil =>
    rw [uploadImages] at h
    cases h
    exact ⟨fun g hg => by simp at hg, fun _ => rfl⟩
  | cons a t ih =>
    rw [uploadImages] at h
    by_cases hb : a.buffer.isEmpty = true
    · rw [if_pos hb] at h
      exact Except.noConfusion h
    · rw [if_neg hb] at h
      cases hu : u a.buffer (extractFilename a.originalname) with
      | error e =>
        rw [hu] at h
        exact Except.noConfusion h
      | ok url =>
        rw [hu] at h
        have IH := ih (m0 ++ [(imagePathOf a, url)]) h
        by_cases hk : imagePathOf a = k
        · have hfil : ((a :: t).filter fun f => imagePathOf f = k)
              = a :: (t.filter fun f => imagePathOf f = k) := by
            simp [List.filter_cons, hk]
          constructor
          · intro g hg
            rw [hfil] at hg
            cases hft : (t.filter fun f => imagePathOf f = k) with
            | nil =>
              rw [hft] at hg
              simp only [List.getLast?_singleton, Option.some.injEq] at hg
              subst hg
              refine ⟨url, hu, ?_⟩
              rw [IH.2 hft, lookupLast_append_single]
              simp [hk]
            | cons g' l' =>
              rw [hft] at hg
              rw [List.getLast?_cons_cons] at hg
              rw [← hft] at hg
              exact IH.1 g hg
          · intro hfil0
            rw [hfil] at hfil0
            exact absurd hfil0 (List.cons_ne_nil _ _)
        · have hfil : ((a :: t).filter fun f => imagePathOf f = k)
              = t.filter fun f => imagePathOf f = k := by
            simp [List.filter_cons, hk]
          constructor
          · intro g hg
            rw [hfil] at hg
            exact IH.1 g hg
          · intro hfil0
            rw [hfil] at hfil0
            rw [IH.2 hfil0, lookupLast_append_single]
            simp [hk]

/-- C10: two collected images whose original paths share the same final
`/`-delimited segment (case-insensitively) get the same map key; on a
successful run, the map entry for that key is the URL uploaded for the
last collected image with that key (the later one silently overwrites the
earlier), and an HTML `img` reference normalizing to that key is rewritten
to that later URL. -/
theorem C10_duplicate_basename_overwrite
    (u : List Nat → String → Except String String)
    (files : List MulterFile) (f1 f2 : MulterFile) (m : List (String × String))
    (hbase : strLower (extractFilename f1.originalname)
      = strLower (extractFilename f2.originalname))
    (_hbytes : f1.buffer ≠ f2.buffer)
    (hmem1 : f1 ∈ imageFilesOf files) :
    imagePathOf f1 = imagePathOf f2 ∧
    (uploadImages u (imageFilesOf files) [] = Except.ok m →
      ∃ g, ((imageFilesOf files).filter fun f => imagePathOf f = imagePathOf f1).getLast?
          = some g ∧
        ∃ url, u g.buffer (extractFilename g.originalname) = Except.ok url ∧
          lookupLast m (imagePathOf f1) = some url) ∧
    (∀ (e : Elem) (src url : String), e.tag = "img" → getAttr e "src" = some src →
      normalizeImagePath src = imagePathOf f1 →
      lookupLast m (imagePathOf f1) = some url →
      rewriteElem (lookupLast m) e = setAttr e "src" url) ∧
    (∀ (e : Elem) (href url : String), isPreloadImageLink e = true →
      getAttr e "href" = some href →
      normalizeImagePath href = imagePathOf f1 →
      lookupLast m (imagePathOf f1) = some url →
      rewriteElem (lookupLast m) e = setAttr e "href" url) := by
  refine ⟨?_, ?_, ?_, ?_⟩
  · show normalizeImagePath ("images/" ++ extractFilename f1.originalname)
      = normalizeImagePath ("images/" ++ extractFilename f2.originalname)
    rw [normalize_images_key, normalize_images_key, hbase]
  · intro hok
    have hne : ((imageFilesOf files).filter fun f => imagePathOf f = imagePathOf f1) ≠ [] := by
      intro h0
      have : f1 ∈ (imageFilesOf files).filter fun f => imagePathOf f = imagePathOf f1 :=
        List.mem_filter.mpr ⟨hmem1, by simp⟩
      rw [h0] at this
      cases this
    cases hg : ((imageFilesOf files).filter fun f => imagePathOf f = imagePathOf f1).getLast? with
    | none => exact absurd (List.getLast?_eq_none_iff.mp hg) hne
    | some g =>
      exact ⟨g, rfl, (uploadImages_ok_lookupLast u _ _ _ _ hok).1 g hg⟩
  · intro e src url htag hsrc hnorm hmap
    rw [rewriteElem_img _ e htag]
    unfold rewriteImgSrc
    rw [hsrc]
    have hpre : strStartsWith (normalizeImagePath src) "images/" = true := by
      rw [hnorm]
      exact imagePathOf_startsWith f1
    simp [hnorm, hpre, imagePathOf_startsWith f1, hmap]
  · intro e href url hlink hhref hnorm hmap
    rw [rewriteElem_preload _ e hlink]
    unfold rewritePreloadHref
    rw [hhref]
    have hpre : strStartsWith (normalizeImagePath href) "images/" = true := by
      rw [hnorm]
      exact imagePathOf_startsWith f1
    simp [hnorm, hpre, imagePathOf_startsWith f1, hmap]

/-- Concrete upload function used by the C10 witness: URL determined by
the bytes. -/
def wUpload : List Nat → String → Except String String := fun b _ =>
  Except.ok (if b = [1] then "https://cdn/first" else "https://cdn/second")

/-- Witness for C10: `images/Logo.png` (bytes `[1]`) and `assets/logo.PNG`
(bytes `[2]`, field-tagged `images`) collide on the key `images/logo.png`;
the map keeps the second URL and the `img` reference is rewritten to it. -/
theorem C10_duplicate_basename_overwrite_witness :
    imagePathOf ⟨"files", "images/Logo.png", [1]⟩ =
      imagePathOf ⟨"images", "assets/logo.PNG", [2]⟩ ∧
    (∃ g, (((imageFilesOf
          [⟨"files", "index.html", [60]⟩, ⟨"files", "images/Logo.png", [1]⟩,
            ⟨"images", "assets/logo.PNG", [2]⟩]).filter
            fun f => imagePathOf f = imagePathOf ⟨"files", "images/Logo.png", [1]⟩).getLast?
        = some g) ∧
      ∃ url, wUpload g.buffer (extractFilename g.originalname) = Except.ok url ∧
        lookupLast [("images/logo.png", "https://cdn/first"), ("images/logo.png", "https://cdn/second")]
          (imagePathOf ⟨"files", "images/Logo.png", [1]⟩) = some url) ∧
    rewriteElem (lookupLast [("images/logo.png", "https://cdn/first"), ("images/logo.png", "https://cdn/second")])
        ⟨"img", [("src", "./Images/LOGO.png")]⟩ =
      setAttr ⟨"img", [("src", "./Images/LOGO.png")]⟩ "src" "https://cdn/second" := by
  have T := C10_duplicate_basename_overwrite wUpload
    [⟨"files", "index.html", [60]⟩, ⟨"files", "images/Logo.png", [1]⟩,
      ⟨"images", "assets/logo.PNG", [2]⟩]
    ⟨"files", "images/Logo.png", [1]⟩ ⟨"images", "assets/logo.PNG", [2]⟩
    [("images/logo.png", "https://cdn/first"), ("images/logo.png", "https://cdn/second")]
    (by decide) (by decide) (by decide)
  exact ⟨T.1, T.2.1 rfl,
    T.2.2.1 ⟨"img", [("src", "./Images/LOGO.png")]⟩ "./Images/LOGO.png" "https://cdn/second"
      rfl rfl (by decide) (by decide)⟩

end CanvaToOutlook
